import Mathlib

-- Verification of the manifest-mutation core of this repository:
-- the span-tagging TOML parser wrapper and path patcher (toml-edit),
-- the Cargo.toml manifest updaters, the update composition layer
-- (CompositeUpdater / mergeUpdates), and the workspace mirror-sync
-- edit-appending phase of the SubstrateWorkspace plugin.
--
-- Text is modelled as a list of characters; the source operates on
-- JavaScript strings with ASCII manifest content, so character offsets
-- coincide with the source's byte offsets on all inputs considered here.

set_option maxRecDepth 4096

abbrev TomlText := List Char

/-- Turn a string literal into the character-list text representation. -/
def toText (s : String) : TomlText := s.toList

-- ---------------------------------------------------------------------------
-- The TOML value tree.
--
-- `tagged` is the TaggedValue of toml-edit: a value annotated with the byte
-- offset of the comma before its assign statement (inline-table entries
-- only), the byte offset of the start of the assign statement, and the
-- byte-exact start/end span of the value itself.
-- ---------------------------------------------------------------------------

inductive JVal where
  | str (s : String)
  | arr (elems : List JVal)
  | table (fields : List (String × JVal))
  | tagged (prevComma : Option Nat) (assignStart : Nat) (startPos : Nat)
      (endPos : Nat) (value : JVal)

/-- A parse failure, with a message and the offset at which it was detected.
The underlying recursive-descent parser (the external library the tagging
wrapper subclasses) is modelled from the spec for the manifest grammar the
updaters exercise: header tables (dotted, bare or double-quoted segments),
`key = value` assignments, basic strings, single-line arrays of strings and
inline tables whose entries are basic strings. -/
inductive ParseErr where
  | err (msg : String) (pos : Nat)
deriving DecidableEq, Repr

def parseErrMsg : ParseErr → String
  | .err m _ => m

-- ---------------------------------------------------------------------------
-- Character-level helpers.
-- ---------------------------------------------------------------------------

def skipWs : TomlText → Nat → TomlText × Nat
  | c :: cs, pos => if c = ' ' ∨ c = '\t' then skipWs cs (pos + 1) else (c :: cs, pos)
  | [], pos => ([], pos)

def skipToNewline : TomlText → Nat → TomlText × Nat
  | [], pos => ([], pos)
  | '\n' :: cs, pos => ('\n' :: cs, pos)
  | _ :: cs, pos => skipToNewline cs (pos + 1)

def isBareKeyChar (c : Char) : Bool :=
  c.isAlphanum || c = '_' || c = '-'

def parseBareKeyAux : TomlText → Nat → List Char × TomlText × Nat
  | [], pos => ([], [], pos)
  | c :: cs, pos =>
    if isBareKeyChar c then
      let (ks, rest, p) := parseBareKeyAux cs (pos + 1)
      (c :: ks, rest, p)
    else ([], c :: cs, pos)

/-- Parse a basic string body after the opening double quote; the returned
position is the offset immediately after the closing quote. -/
def parseBasicString : TomlText → Nat → Except ParseErr (String × TomlText × Nat)
  | [], pos => .error (.err "unterminated string" pos)
  | c :: cs, pos =>
    if c = '"' then .ok ("", cs, pos + 1)
    else if c = '\n' then .error (.err "newline in string" pos)
    else
      match parseBasicString cs (pos + 1) with
      | .error e => .error e
      | .ok (s, rest, p) => .ok (String.mk (c :: s.toList), rest, p)

/-- A key: either a double-quoted segment or a bare key. -/
def parseKeySegment : TomlText → Nat → Except ParseErr (String × TomlText × Nat)
  | '"' :: cs, pos => parseBasicString cs (pos + 1)
  | cs, pos =>
    match parseBareKeyAux cs pos with
    | ([], _, _) => .error (.err "expected key" pos)
    | (ks, rest, p) => .ok (String.mk ks, rest, p)

def expectLineEnd : TomlText → Nat → Except ParseErr (TomlText × Nat)
  | cs, pos =>
    match skipWs cs pos with
    | (cs1, pos1) =>
      match cs1 with
      | [] => .ok ([], pos1)
      | '\n' :: rest => .ok (rest, pos1 + 1)
      | '#' :: rest =>
        match skipToNewline rest (pos1 + 1) with
        | ('\n' :: rest2, p2) => .ok (rest2, p2 + 1)
        | (_, p2) => .ok ([], p2)
      | _ => .error (.err "expected end of line" pos1)

-- ---------------------------------------------------------------------------
-- Table construction during parsing.
-- ---------------------------------------------------------------------------

def lookupF : List (String × JVal) → String → Option JVal
  | [], _ => none
  | (k', v) :: fs, k => if k' = k then some v else lookupF fs k

def updateF : List (String × JVal) → String → JVal → List (String × JVal)
  | [], k, v => [(k, v)]
  | (k', v') :: fs, k, v =>
    if k' = k then (k, v) :: fs else (k', v') :: updateF fs k v

/-- Register a `[a.b.c]` table header: create intermediate tables as needed,
refuse a duplicate definition of the final table. -/
def declareHeader : List (String × JVal) → List String →
    Except ParseErr (List (String × JVal))
  | _, [] => .error (.err "empty header" 0)
  | fs, [p] =>
    match lookupF fs p with
    | none => .ok (fs ++ [(p, .table [])])
    | some _ => .error (.err "duplicate table" 0)
  | fs, p :: ps =>
    match lookupF fs p with
    | none =>
      match declareHeader [] ps with
      | .error e => .error e
      | .ok sub => .ok (fs ++ [(p, .table sub)])
    | some (.table sub) =>
      match declareHeader sub ps with
      | .error e => .error e
      | .ok sub' => .ok (updateF fs p (.table sub'))
    | some _ => .error (.err "header path is not a table" 0)

/-- Insert an assignment's value at the current header path, refusing a
duplicate key. -/
def insertAtPath : List (String × JVal) → List String → String → JVal →
    Except ParseErr (List (String × JVal))
  | fs, [], k, v =>
    match lookupF fs k with
    | none => .ok (fs ++ [(k, v)])
    | some _ => .error (.err "duplicate key" 0)
  | fs, p :: ps, k, v =>
    match lookupF fs p with
    | some (.table sub) =>
      match insertAtPath sub ps k v with
      | .error e => .error e
      | .ok sub' => .ok (updateF fs p (.table sub'))
    | some _ => .error (.err "assignment path is not a table" 0)
    | none =>
      match insertAtPath [] ps k v with
      | .error e => .error e
      | .ok sub' => .ok (fs ++ [(p, .table sub')])

-- ---------------------------------------------------------------------------
-- The tagging hook.
--
-- TaggedTOMLParser.return only attaches a tag when both recorded offsets are
-- truthy in JavaScript:
--   if (prevState.__TAGGED_ASSIGN_START && prevState.__TAGGED_START) { ... }
-- A recorded offset of 0 is falsy, so an assignment that starts at byte
-- offset 0 never gets a tag.  Container values produced by inline tables are
-- not tagged ("Note that we don't tag objects").  The plain parser
-- (parserType = TOMLParser) corresponds to `tagging = false`.
-- ---------------------------------------------------------------------------

def mkTagged (tagging : Bool) (prevComma : Option Nat)
    (assignStart vStart vEnd : Nat) (v : JVal) : JVal :=
  match v with
  | .table _ => v
  | _ =>
    if tagging = true ∧ assignStart ≠ 0 ∧ vStart ≠ 0 then
      .tagged prevComma assignStart vStart vEnd v
    else v

-- ---------------------------------------------------------------------------
-- Value parsing.  Values are returned together with the offset of their
-- first character and the offset one past their last character
-- (`parseValue` records this.pos - 1 as the start; `return` records
-- this.pos as the end).
-- ---------------------------------------------------------------------------

def parseArrayElems : Nat → TomlText → Nat →
    Except ParseErr (List JVal × TomlText × Nat)
  | 0, _, pos => .error (.err "out of fuel" pos)
  | fuel + 1, cs, pos =>
    match skipWs cs pos with
    | (cs1, pos1) =>
      match cs1 with
      | ']' :: rest => .ok ([], rest, pos1 + 1)
      | '"' :: rest =>
        (match parseBasicString rest (pos1 + 1) with
         | .error e => .error e
         | .ok (s, cs2, pos2) =>
           match skipWs cs2 pos2 with
           | (cs3, pos3) =>
             match cs3 with
             | ',' :: rest3 =>
               (match parseArrayElems fuel rest3 (pos3 + 1) with
                | .error e => .error e
                | .ok (xs, cs4, pos4) => .ok (JVal.str s :: xs, cs4, pos4))
             | ']' :: rest3 => .ok ([JVal.str s], rest3, pos3 + 1)
             | _ => .error (.err "expected comma or bracket in array" pos3))
      | _ => .error (.err "expected string or bracket in array" pos1)

/-- A scalar-or-array value (the forms that may appear inside inline tables
in the modelled grammar). Returns (value, start, end, rest, pos). -/
def parseSimpleValue : TomlText → Nat →
    Except ParseErr (JVal × Nat × Nat × TomlText × Nat)
  | '"' :: rest, pos =>
    (match parseBasicString rest (pos + 1) with
     | .error e => .error e
     | .ok (s, cs1, pos1) => .ok (.str s, pos, pos1, cs1, pos1))
  | '[' :: rest, pos =>
    (match parseArrayElems (rest.length + 1) rest (pos + 1) with
     | .error e => .error e
     | .ok (xs, cs1, pos1) => .ok (.arr xs, pos, pos1, cs1, pos1))
  | _, pos => .error (.err "unsupported value" pos)

/-- Inline-table entries.  `prevComma` is the offset of the comma before the
entry's assign statement (parseInlineTableNext records this.pos - 1 when the
current character is a comma, and `call` carries it into the entry's
sub-parse); the first entry has none. -/
def parseInlineEntries (tagging : Bool) : Nat → Option Nat → TomlText → Nat →
    Except ParseErr (List (String × JVal) × TomlText × Nat)
  | 0, _, _, pos => .error (.err "out of fuel" pos)
  | fuel + 1, prevComma, cs, pos =>
    let assignStart := pos
    match parseKeySegment cs pos with
    | .error e => .error e
    | .ok (key, cs1, pos1) =>
      match skipWs cs1 pos1 with
      | (cs2, pos2) =>
        match cs2 with
        | '=' :: cs3 =>
          (match skipWs cs3 (pos2 + 1) with
           | (cs4, pos4) =>
             match parseSimpleValue cs4 pos4 with
             | .error e => .error e
             | .ok (v, vStart, vEnd, cs5, pos5) =>
               let entry := (key, mkTagged tagging prevComma assignStart vStart vEnd v)
               match skipWs cs5 pos5 with
               | (cs6, pos6) =>
                 match cs6 with
                 | '\x7d' :: cs7 => .ok ([entry], cs7, pos6 + 1)
                 | ',' :: cs7 =>
                   (match skipWs cs7 (pos6 + 1) with
                    | (cs8, pos8) =>
                      match parseInlineEntries tagging fuel (some pos6) cs8 pos8 with
                      | .error e => .error e
                      | .ok (entries, cs9, pos9) =>
                        if (lookupF entries key).isSome then
                          .error (.err "duplicate key in inline table" pos)
                        else .ok (entry :: entries, cs9, pos9))
                 | _ => .error (.err "expected comma or closing brace" pos6))
        | _ => .error (.err "expected equals sign in inline table" pos2)

/-- A value on the right of `=`: a basic string, an array of strings, or an
inline table. -/
def parseValue (tagging : Bool) : TomlText → Nat →
    Except ParseErr (JVal × Nat × Nat × TomlText × Nat)
  | '\x7b' :: rest, pos =>
    (match skipWs rest (pos + 1) with
     | (cs1, pos1) =>
       match cs1 with
       | '\x7d' :: cs2 => .ok (.table [], pos, pos1 + 1, cs2, pos1 + 1)
       | _ =>
         match parseInlineEntries tagging (cs1.length + 1) none cs1 pos1 with
         | .error e => .error e
         | .ok (fs, cs2, pos2) => .ok (.table fs, pos, pos2, cs2, pos2))
  | cs, pos => parseSimpleValue cs pos

def parseHeaderSegs : Nat → TomlText → Nat →
    Except ParseErr (List String × TomlText × Nat)
  | 0, _, pos => .error (.err "out of fuel" pos)
  | fuel + 1, cs, pos =>
    match parseKeySegment cs pos with
    | .error e => .error e
    | .ok (seg, cs1, pos1) =>
      match cs1 with
      | '.' :: rest =>
        (match parseHeaderSegs fuel rest (pos1 + 1) with
         | .error e => .error e
         | .ok (segs, cs2, pos2) => .ok (seg :: segs, cs2, pos2))
      | ']' :: rest => .ok ([seg], rest, pos1 + 1)
      | _ => .error (.err "expected dot or bracket in header" pos1)

/-- The top-level document loop: blank lines, comments, `[header]` lines and
`key = value` assignments.  `parseAssign` records this.pos - 1 (the offset of
the first character of the assign statement) before the statement is read;
top-level assignments never have a preceding inline-table comma. -/
def parseDoc (tagging : Bool) : Nat → TomlText → Nat → List String →
    List (String × JVal) → Except ParseErr (List (String × JVal))
  | 0, _, pos, _, _ => .error (.err "out of fuel" pos)
  | fuel + 1, cs, pos, curPath, root =>
    match skipWs cs pos with
    | (cs1, pos1) =>
      match cs1 with
      | [] => .ok root
      | '\n' :: rest => parseDoc tagging fuel rest (pos1 + 1) curPath root
      | '#' :: rest =>
        (match skipToNewline rest (pos1 + 1) with
         | (cs2, pos2) => parseDoc tagging fuel cs2 pos2 curPath root)
      | '[' :: rest =>
        (match parseHeaderSegs (rest.length + 1) rest (pos1 + 1) with
         | .error e => .error e
         | .ok (path, cs2, pos2) =>
           match expectLineEnd cs2 pos2 with
           | .error e => .error e
           | .ok (cs3, pos3) =>
             match declareHeader root path with
             | .error e => .error e
             | .ok root' => parseDoc tagging fuel cs3 pos3 path root')
      | _ =>
        let assignStart := pos1
        match parseKeySegment cs1 pos1 with
        | .error e => .error e
        | .ok (key, cs2, pos2) =>
          match skipWs cs2 pos2 with
          | (cs3, pos3) =>
            match cs3 with
            | '=' :: cs4 =>
              (match skipWs cs4 (pos3 + 1) with
               | (cs5, pos5) =>
                 match parseValue tagging cs5 pos5 with
                 | .error e => .error e
                 | .ok (v, vStart, vEnd, cs6, pos6) =>
                   match insertAtPath root curPath key
                       (mkTagged tagging none assignStart vStart vEnd v) with
                   | .error e => .error e
                   | .ok root' =>
                     match expectLineEnd cs6 pos6 with
                     | .error e => .error e
                     | .ok (cs7, pos7) => parseDoc tagging fuel cs7 pos7 curPath root')
            | _ => .error (.err "expected equals sign" pos3)

/-- `parseWith(input, parserType)`: parse the input, with
`tagging = true` standing for TaggedTOMLParser and `tagging = false` for the
plain TOMLParser. -/
def parseWith (tagging : Bool) (input : TomlText) : Except ParseErr JVal :=
  match parseDoc tagging (input.length + 1) input 0 [] [] with
  | .error e => .error e
  | .ok fs => .ok (.table fs)

-- ---------------------------------------------------------------------------
-- The path patcher: replaceTomlValue from toml-edit.
-- ---------------------------------------------------------------------------

/-- The error taxonomy of replaceTomlValue.  The source throws plain Errors
whose messages distinguish the cases; the constructors keep them apart. -/
inductive TomlErr where
  | parseErr (msg : String)
  | partialPath (msg : String)
  | pathNotFound (msg : String)
  | notTagged (msg : String)
  | corruption (msg : String)
deriving DecidableEq, Repr

/-- JavaScript truthiness of a parsed value: empty strings are falsy, all
objects (arrays, tables, tagged values) are truthy. -/
def jsTruthy : JVal → Bool
  | .str s => !(s = "")
  | _ => true

/-- `typeof v === 'object'` for a parsed value: everything except a plain
string is an object. -/
def jsIsObject : JVal → Bool
  | .str _ => false
  | _ => true

/-- Indexing a value with a string key, as `current[key]` does: only tables
have string-keyed fields, every other indexing yields undefined. -/
def jsIndex : JVal → String → Option JVal
  | .table fs, k => lookupF fs k
  | _, _ => none

def joinDots : List String → String
  | [] => ""
  | [s] => s
  | s :: rest => s ++ "." ++ joinDots rest

/-- The path-walking loop of replaceTomlValue: unwrap a tagged value to its
inner value (which must be a truthy object), index with the key, and require
the result to be an object. -/
def navigateGo (path : List String) : JVal → List String → Nat →
    Except TomlErr JVal
  | current, [], _ => .ok current
  | current, key :: rest, i =>
    let unwrapped : Except TomlErr JVal :=
      match current with
      | .tagged _ _ _ _ v =>
        if jsTruthy v = true ∧ jsIsObject v = true then .ok v
        else .error (.partialPath
          ("partial path does not lead to table: " ++ joinDots (path.take i)))
      | _ => .ok current
    match unwrapped with
    | .error e => .error e
    | .ok cur =>
      match jsIndex cur key with
      | some next =>
        if jsIsObject next then navigateGo path next rest (i + 1)
        else .error (.pathNotFound
          ("path not found in object: " ++ joinDots (path.take (i + 1))))
      | none => .error (.pathNotFound
          ("path not found in object: " ++ joinDots (path.take (i + 1))))

/-- Parse the input with the span-tagging parser and walk the path. -/
def navigateFull (input : TomlText) (path : List String) : Except TomlErr JVal :=
  match parseWith true input with
  | .error e => .error (.parseErr (parseErrMsg e))
  | .ok root => navigateGo path root path 0

/-- TOML.stringify.value for the scalar and array-of-strings values the
updaters pass (version strings, path strings, member lists). -/
def stringifyStrElem : JVal → TomlText
  | .str s => '"' :: (s.toList ++ ['"'])
  | _ => []

def stringifyElems : List JVal → TomlText
  | [] => []
  | [x] => stringifyStrElem x
  | x :: xs => stringifyStrElem x ++ ',' :: ' ' :: stringifyElems xs

def stringifyValue : JVal → TomlText
  | .str s => '"' :: (s.toList ++ ['"'])
  | .arr xs => '[' :: (stringifyElems xs ++ [']'])
  | _ => []

/-- The splicing step of replaceTomlValue, before the re-parse self-check.
`if (newValue)` is a JavaScript truthiness test, so a null *or falsy* (empty
string) newValue takes the deletion branch, which splices out from the
preceding comma (or, failing that, the start of the assign statement) to the
end of the value. -/
def replaceTomlSpliced (input : TomlText) (path : List String)
    (newValue : Option JVal) : Except TomlErr TomlText :=
  match navigateFull input path with
  | .error e => .error e
  | .ok current =>
    match current with
    | .tagged prevComma assignStart startPos endPos _ =>
      .ok (match newValue with
        | some v =>
          if jsTruthy v then
            input.take startPos ++ stringifyValue v ++ input.drop endPos
          else
            input.take (prevComma.getD assignStart) ++ input.drop endPos
        | none => input.take (prevComma.getD assignStart) ++ input.drop endPos)
    | _ => .error (.notTagged
        ("value at path " ++ joinDots path ++ " is not tagged"))

/-- replaceTomlValue: splice, then re-parse the produced text with the plain
(untagged) parser; a re-parse failure is reported as the corruption error and
the corrupt text is never returned. -/
def replaceTomlValue (input : TomlText) (path : List String)
    (newValue : Option JVal) : Except TomlErr TomlText :=
  match replaceTomlSpliced input path newValue with
  | .error e => .error e
  | .ok output =>
    match parseWith false output with
    | .error e => .error (.corruption
        ("After replacing value, result is not valid TOML: " ++ parseErrMsg e))
    | .ok _ => .ok output

-- ---------------------------------------------------------------------------
-- Cargo.toml manifest updaters (cargo-toml.ts).
-- ---------------------------------------------------------------------------

/-- Modelled from the spec: DEP_KINDS comes from updaters/rust/common, which
is not in the source excerpt; the spec lists the recognized dependency-kind
sections as normal, dev and build dependencies. -/
def DEP_KINDS : List String := ["dependencies", "dev-dependencies", "build-dependencies"]

/-- Modelled from the spec: parseCargoManifest (updaters/rust/common, not in
the source excerpt) parses the manifest text with the plain TOML parser. -/
def parseCargoManifest (content : TomlText) : Except ParseErr JVal :=
  parseWith false content

/-- Errors escaping the manifest updaters; informational skips never raise. -/
inductive UpdateError where
  | noVersions
  | notPackageManifest
  | parseFailed (e : ParseErr)
  | toml (e : TomlErr)
deriving DecidableEq, Repr

/-- `!x` style truthiness guard on the result of indexing: undefined and
falsy values (empty strings) both fail the `if (!deps)` / `if (!deps[pkg])`
checks. -/
def jsIndexTruthy (v : JVal) (k : String) : Option JVal :=
  match jsIndex v k with
  | some x => if jsTruthy x then some x else none
  | none => none

def isStrJ : JVal → Bool
  | .str _ => true
  | _ => false

/-- One top-level iteration of the CargoToml dependency loop (lines 50-85):
skip when the section or the dependency is missing/falsy, when the
dependency is a bare string, when it has no `path`, or when it has no
`version`; otherwise replace the `version` value, widening to a
less-than-or-equal bound for the dev-dependencies kind. -/
def depUpdateStep (parsed : JVal) (pkgName pkgVersion depKind : String)
    (payload : TomlText) : Except TomlErr TomlText :=
  match jsIndexTruthy parsed depKind with
  | none => .ok payload
  | some deps =>
    match jsIndexTruthy deps pkgName with
    | none => .ok payload
    | some dep =>
      if isStrJ dep = true ∨ (jsIndex dep "path").isNone then .ok payload
      else if (jsIndex dep "version").isNone then .ok payload
      else
        replaceTomlValue payload [depKind, pkgName, "version"]
          (some (.str (if depKind = "dev-dependencies"
                       then "<=" ++ pkgVersion else pkgVersion)))

/-- One platform-specific iteration of the CargoToml dependency loop
(lines 90-122).  Faithful to the source: unlike the top-level loop, this
loop has no `typeof dep.version === 'undefined'` skip, so a table dependency
with a `path` but no `version` goes straight to the replacement call. -/
def targetDepUpdateStep (tval : JVal) (pkgName pkgVersion targetName depKind : String)
    (payload : TomlText) : Except TomlErr TomlText :=
  match jsIndexTruthy tval depKind with
  | none => .ok payload
  | some deps =>
    match jsIndexTruthy deps pkgName with
    | none => .ok payload
    | some dep =>
      if isStrJ dep = true ∨ (jsIndex dep "path").isNone then .ok payload
      else
        replaceTomlValue payload ["target", targetName, depKind, pkgName, "version"]
          (some (.str (if depKind = "dev-dependencies"
                       then "<=" ++ pkgVersion else pkgVersion)))

/-- CargoToml.updateContent: bump `package.version`, then for every entry of
the versions map update the dependency tables, top-level and per-target.
`Object.keys(parsed.target)` iterates the target sub-tables in insertion
order; a truthy non-table `parsed.target` has no string-keyed sub-tables and
contributes nothing. -/
def CargoToml.updateContent (version : String)
    (versionsMap : Option (List (String × String))) (content : TomlText) :
    Except UpdateError TomlText :=
  match versionsMap with
  | none => .error .noVersions
  | some vm =>
    match parseCargoManifest content with
    | .error e => .error (.parseFailed e)
    | .ok parsed =>
      match jsIndexTruthy parsed "package" with
      | none => .error .notPackageManifest
      | some _ =>
        match replaceTomlValue content ["package", "version"] (some (.str version)) with
        | .error e => .error (.toml e)
        | .ok payload =>
          vm.foldlM (fun payload (pv : String × String) => do
            let payload ← DEP_KINDS.foldlM (fun payload depKind =>
              (depUpdateStep parsed pv.1 pv.2 depKind payload).mapError .toml) payload
            match jsIndexTruthy parsed "target" with
            | none => pure payload
            | some (.table tfs) =>
              tfs.foldlM (fun payload (tv : String × JVal) =>
                DEP_KINDS.foldlM (fun payload depKind =>
                  (targetDepUpdateStep tv.2 pv.1 pv.2 tv.1 depKind payload).mapError .toml)
                  payload) payload
            | some _ => pure payload) payload

/-- One top-level iteration of the CargoTomlRemovePaths loop (lines 155-174):
skip when the dependency is missing/falsy, a bare string, or has no `path`;
otherwise delete the `path` sub-field (newValue = null). -/
def removePathStep (parsed : JVal) (name depKind : String) (payload : TomlText) :
    Except TomlErr TomlText :=
  match jsIndexTruthy parsed depKind with
  | none => .ok payload
  | some deps =>
    match jsIndexTruthy deps name with
    | none => .ok payload
    | some dep =>
      if isStrJ dep = true ∨ (jsIndex dep "path").isNone then .ok payload
      else replaceTomlValue payload [depKind, name, "path"] none

/-- The per-target iteration of the CargoTomlRemovePaths loop (lines 177-205). -/
def targetRemovePathStep (tval : JVal) (name targetName depKind : String)
    (payload : TomlText) : Except TomlErr TomlText :=
  match jsIndexTruthy tval depKind with
  | none => .ok payload
  | some deps =>
    match jsIndexTruthy deps name with
    | none => .ok payload
    | some dep =>
      if isStrJ dep = true ∨ (jsIndex dep "path").isNone then .ok payload
      else replaceTomlValue payload ["target", targetName, depKind, name, "path"] none

/-- CargoTomlRemovePaths.updateContent over the names of the known packages
(CrateInfo.name is the only field the updater reads). -/
def CargoTomlRemovePaths.updateContent (allPackages : List String)
    (content : TomlText) : Except UpdateError TomlText :=
  match parseCargoManifest content with
  | .error e => .error (.parseFailed e)
  | .ok parsed =>
    match jsIndexTruthy parsed "package" with
    | none => .error .notPackageManifest
    | some _ =>
      allPackages.foldlM (fun payload name => do
        let payload ← DEP_KINDS.foldlM (fun payload depKind =>
          (removePathStep parsed name depKind payload).mapError .toml) payload
        match jsIndexTruthy parsed "target" with
        | none => pure payload
        | some (.table tfs) =>
          tfs.foldlM (fun payload (tv : String × JVal) =>
            DEP_KINDS.foldlM (fun payload depKind =>
              (targetRemovePathStep tv.2 name tv.1 depKind payload).mapError .toml)
              payload) payload
        | some _ => pure payload) content

-- ---------------------------------------------------------------------------
-- Update composition (updaters/composite.ts).
-- ---------------------------------------------------------------------------

/-- A content transform: updateContent takes the current content and returns
the new content, or null (none) when the file is to have no content. -/
abbrev SUpdater := String → Option String

/-- The chaining fold of CompositeUpdater.updateContent:
`newContent = newContent !== null ? updater.updateContent(newContent) : newContent`
so once the state is null, later updaters are not invoked and null is kept. -/
def chainRun (updaters : List SUpdater) (content : String) : Option String :=
  updaters.foldl (fun acc u =>
    match acc with
    | none => none
    | some s => u s) (some content)

/-- CompositeUpdater.updateContent: run the chain, then `newContent || ''`
turns a null (or empty) final state into the empty string. -/
def CompositeUpdater.updateContent (updaters : List SUpdater) (content : String) :
    String :=
  match chainRun updaters content with
  | none => ""
  | some s => s

/-- Written from the spec's words, for comparison with the source-derived
`CompositeUpdater.updateContent`: if a transform yields no content,
"propagation continues with an empty string rather than short-circuiting",
i.e. the next transform is invoked with the empty string as its input. -/
def specChainUpdate (updaters : List SUpdater) (content : String) : String :=
  (updaters.foldl (fun acc u => u (acc.getD "")) (some content)).getD ""

-- ---------------------------------------------------------------------------
-- Merging edits (mergeUpdates).
-- ---------------------------------------------------------------------------

/-- The transform attached to an edit, kept syntactic so that the chain
produced by merging is observable: `composite us` is
`new CompositeUpdater(...us)`.  Output encodings are not used by the merge
and are not modelled. -/
inductive CUpdater where
  | base (id : Nat)
  | composite (us : List CUpdater)

instance : Inhabited CUpdater := ⟨.base 0⟩

/-- An Update: target path, create-if-missing flag, content transform. -/
structure CUpdate where
  path : String
  createIfMissing : Bool
  updater : CUpdater

instance : Inhabited CUpdate := ⟨⟨"", false, default⟩⟩

/-- First-occurrence deduplication of the target paths, as iterating the
`updatesByPath` record in insertion order visits them. -/
def firstDedupAux : List String → List String → List String
  | [], _ => []
  | x :: xs, seen =>
    if x ∈ seen then firstDedupAux xs seen else x :: firstDedupAux xs (x :: seen)

def firstDedup (l : List String) : List String := firstDedupAux l []

/-- The edit mergeUpdates builds for one path: the group's transforms are the
input updates with that path in input order; a single transform is kept
as-is, otherwise they are folded into one CompositeUpdater chain; the
create-if-missing flag is the first group member's (`update[0]`). -/
def mkEntry (updates : List CUpdate) (p : String) : CUpdate :=
  let group := updates.filter (fun u => u.path = p)
  { path := p,
    createIfMissing := (group.headD default).createIfMissing,
    updater :=
      match group.map (fun u => u.updater) with
      | [u] => u
      | us => .composite us }

/-- mergeUpdates: group the edits by target path (the record preserves
first-insertion order for these path keys) and emit one edit per path. -/
def mergeUpdates (updates : List CUpdate) : List CUpdate :=
  (firstDedup (updates.map (fun u => u.path))).map (mkEntry updates)

-- ---------------------------------------------------------------------------
-- SubstrateWorkspace: the edit-appending phase of run()
-- (manifest edit + docs/examples mirror sync), from
-- plugins/substrate-workspace.ts.  The GitHub client is an external
-- collaborator and enters as two function parameters: a glob listing
-- `findFiles glob dir` and a content fetch `getContents path` (none models
-- FileNotFoundError).
-- ---------------------------------------------------------------------------

/-- The updater attached to a workspace edit.  Evaluation is modelled for the
forms the mirror phase actually applies to source-file content (rawContent
and opaque pre-existing transforms); the constructors the phase only pushes
or wraps (removeFile, the manifest/members updaters, removePaths, composite)
are never evaluated inside the phase. -/
inductive MUpdater where
  | rawContent (content : String)
  | removeFile
  | releasePleaseManifest
  | cargoWorkspaceMembers (members : List String)
  | cargoTomlRemovePathsU (names : List String)
  | compositeOf (us : List MUpdater)
  | baseFn (f : String → Option String)

structure MUpdate where
  path : String
  createIfMissing : Bool
  cachedFileContents : Option String := none
  updater : MUpdater

/-- updateContent of an attached updater, for the forms the phase evaluates;
RawContent returns its stored content regardless of input. -/
def evalUpdater : MUpdater → String → Option String
  | .rawContent c, _ => some c
  | .removeFile, _ => none
  | .baseFn f, s => f s
  | _, s => some s

/-- Null-or-empty-string JavaScript falsiness on an optional string. -/
def jsTruthyStr : Option String → Option String
  | some s => if s = "" then none else some s
  | none => none

/-- getFileContent: use the cached contents when present, otherwise fetch;
FileNotFoundError resolves to the empty string when the edit allows creation
and to null otherwise. -/
def getFileContentM (getContents : String → Option String)
    (fileUpdate : Option MUpdate) (sourcePath : String) : Option String :=
  match fileUpdate.bind (fun u => u.cachedFileContents) with
  | some c => some c
  | none =>
    match getContents sourcePath with
    | some c => some c
    | none =>
      if (match fileUpdate with
          | some u => u.createIfMissing
          | none => false) then some "" else none

/-- The resolved content overwriteFile will register:
`fileContent ? (fileUpdate ? fileUpdate.updater.updateContent(fileContent) : fileContent) : null`
— both conditions are truthiness tests, so an empty string behaves as null. -/
def resolvedNewContent (getContents : String → Option String)
    (updates : List MUpdate) (sourcePath : String) : Option String :=
  let fileUpdate := updates.find? (fun u => u.path = sourcePath)
  match jsTruthyStr (getFileContentM getContents fileUpdate sourcePath) with
  | some c =>
    match fileUpdate with
    | some u => evalUpdater u.updater c
    | none => some c
  | none => none

/-- The edit overwriteFile pushes for the target path:
`newFileContent ? new RawContent(newFileContent) : new RemoveFile()`. -/
def overwriteNewUpdate (getContents : String → Option String)
    (updates : List MUpdate) (sourcePath targetPath : String) : MUpdate :=
  { path := targetPath,
    createIfMissing := true,
    cachedFileContents := none,
    updater :=
      match jsTruthyStr (resolvedNewContent getContents updates sourcePath) with
      | some c => .rawContent c
      | none => .removeFile }

/-- overwriteFile: append the new edit to the candidate's update list. -/
def overwriteFile (getContents : String → Option String)
    (updates : List MUpdate) (sourcePath targetPath : String) : List MUpdate :=
  updates ++ [overwriteNewUpdate getContents updates sourcePath targetPath]

/-- The first loop of overwriteDirectory: overwrite every listed destination
file not in the exceptions, with no check against already-registered edits. -/
def overwriteLoop1 (getContents : String → Option String)
    (sourceDir targetDir : String) (exceptions : List String)
    (updates : List MUpdate) (files : List String) : List MUpdate :=
  files.foldl (fun ups file =>
    if file ∈ exceptions then ups
    else overwriteFile getContents ups (sourceDir ++ "/" ++ file)
      (targetDir ++ "/" ++ file)) updates

/-- The second loop of overwriteDirectory: create edits for source-listed
files, each guarded by an exists-check against the current update list. -/
def overwriteLoop2 (getContents : String → Option String)
    (sourceDir targetDir : String) (exceptions : List String)
    (updates : List MUpdate) (files : List String) : List MUpdate :=
  files.foldl (fun ups file =>
    if (ups.find? (fun u => u.path = targetDir ++ "/" ++ file)).isNone
        ∧ file ∉ exceptions then
      overwriteFile getContents ups (sourceDir ++ "/" ++ file)
        (targetDir ++ "/" ++ file)
    else ups) updates

/-- overwriteDirectory: run the overwrite loop on the destination listing,
then the creation loop on the source listing. -/
def overwriteDirectory (findFiles : String → String → List String)
    (getContents : String → Option String) (updates : List MUpdate)
    (sourceDir targetDir : String) (exceptions : List String) : List MUpdate :=
  overwriteLoop2 getContents sourceDir targetDir exceptions
    (overwriteLoop1 getContents sourceDir targetDir exceptions updates
      (findFiles "**/*" targetDir))
    (findFiles "**/*" sourceDir)

/-- removeReleaseExamplePathDependencies: for each example manifest, wrap the
first registered edit at the mirrored path (Array.prototype.find) in a
CompositeUpdater with the path remover; target paths are unchanged. -/
def setUpdaterAtFirst : List MUpdate → String → (MUpdater → MUpdater) →
    List MUpdate
  | [], _, _ => []
  | u :: us, p, f =>
    if u.path = p then { u with updater := f u.updater } :: us
    else u :: setUpdaterAtFirst us p f

def removeReleaseExamplePaths (findFiles : String → String → List String)
    (allPackages : List String) (updates : List MUpdate) : List MUpdate :=
  (findFiles "**/Cargo.toml" "examples/latest").foldl (fun ups file =>
    setUpdaterAtFirst ups ("examples/release/" ++ file)
      (fun u => .compositeOf [u, .cargoTomlRemovePathsU allPackages])) updates

/-- The edit-appending tail of SubstrateWorkspace.run on the first in-scope
candidate: push the aggregate release-please manifest edit (run lines
124-131), mirror the docs and examples directories, attach the path
removers, and push the example workspace-members edit
(updateDocsAndExamples).  The earlier candidate-building steps and the
external post-processing hook determine `updates` and are not modelled. -/
def runAppendPhase (findFiles : String → String → List String)
    (getContents : String → Option String) (manifestPath : String)
    (allPackages : List String) (updates : List MUpdate) : List MUpdate :=
  let updates := updates ++
    [{ path := manifestPath, createIfMissing := false,
       updater := .releasePleaseManifest }]
  let updates := overwriteDirectory findFiles getContents updates
    "docs/docusaurus/docs" "docs/docusaurus/versioned_docs/version-release"
    ["docs-config.json"]
  let updates := overwriteDirectory findFiles getContents updates
    "examples/latest" "examples/release" ["Cargo.toml", "Justfile"]
  let updates := removeReleaseExamplePaths findFiles allPackages updates
  updates ++
    [{ path := "examples/release/Cargo.toml", createIfMissing := true,
       updater := .cargoWorkspaceMembers
         ((findFiles "**/Cargo.toml" "examples/latest").map
           (fun f => f.dropRight "/Cargo.toml".length)) }]

-- ---------------------------------------------------------------------------
-- Remaining shared definitions: success predicate, mirror path summaries,
-- concrete manifests and fixtures used by the theorems below.
-- ---------------------------------------------------------------------------

def exceptIsOk {ε α : Type _} : Except ε α → Bool
  | .ok _ => true
  | .error _ => false

deriving instance DecidableEq for Except

/-- The destination paths the first overwriteDirectory loop pushes. -/
def mirrorOverwritePaths (findFiles : String → String → List String)
    (targetDir : String) (exceptions : List String) : List String :=
  ((findFiles "**/*" targetDir).filter (fun f => f ∉ exceptions)).map
    (fun f => targetDir ++ "/" ++ f)

/-- The destination paths the second overwriteDirectory loop can push
(an upper bound; the exists-check may skip some). -/
def mirrorSourcePaths (findFiles : String → String → List String)
    (sourceDir targetDir : String) : List String :=
  (findFiles "**/*" sourceDir).map (fun f => targetDir ++ "/" ++ f)

-- Concrete manifests (the spec's own examples, section 8).

def manifestDeps : String :=
  "[package]\nname = \"x\"\nversion = \"0.1.0\"\n\n[dependencies]\nfoo = \x7b path = \"../foo\", version = \"1.0.0\" \x7d\n"

def manifestDepsBumped : String :=
  "[package]\nname = \"x\"\nversion = \"1.2.3\"\n\n[dependencies]\nfoo = \x7b path = \"../foo\", version = \"2.0.0\" \x7d\n"

def manifestDevDeps : String :=
  "[package]\nname = \"x\"\nversion = \"0.1.0\"\n\n[dev-dependencies]\nfoo = \x7b path = \"../foo\", version = \"1.0.0\" \x7d\n"

def manifestDevDepsBumped : String :=
  "[package]\nname = \"x\"\nversion = \"1.2.3\"\n\n[dev-dependencies]\nfoo = \x7b path = \"../foo\", version = \"<=2.0.0\" \x7d\n"

def manifestTargetNoVersion : String :=
  "[package]\nname = \"x\"\nversion = \"0.1.0\"\n\n[target.\"cfg(unix)\".dependencies]\nfoo = \x7b path = \"../foo\" \x7d\n"

def manifestTopNoVersion : String :=
  "[package]\nname = \"x\"\nversion = \"0.1.0\"\n\n[dependencies]\nfoo = \x7b path = \"../foo\" \x7d\n"

def manifestTopNoVersionBumped : String :=
  "[package]\nname = \"x\"\nversion = \"1.2.3\"\n\n[dependencies]\nfoo = \x7b path = \"../foo\" \x7d\n"

def manifestPathFirst : String :=
  "[package]\nname = \"x\"\nversion = \"1.0.0\"\n\n[dependencies]\nfoo = \x7b path = \"../foo\", version = \"2.0.0\" \x7d\n"

def manifestPathFirstSpliced : String :=
  "[package]\nname = \"x\"\nversion = \"1.0.0\"\n\n[dependencies]\nfoo = \x7b , version = \"2.0.0\" \x7d\n"

def manifestPathSecond : String :=
  "[package]\nname = \"x\"\nversion = \"1.0.0\"\n\n[dependencies]\nfoo = \x7b version = \"2.0.0\", path = \"../foo\" \x7d\n"

def manifestPathSecondStripped : String :=
  "[package]\nname = \"x\"\nversion = \"1.0.0\"\n\n[dependencies]\nfoo = \x7b version = \"2.0.0\" \x7d\n"

-- Fixtures for the workspace mirror phase.

def exFindFiles : String → String → List String := fun glob dir =>
  if dir = "examples/release" ∧ glob = "**/*" then ["pkg/Cargo.toml"] else []

def exGetContents : String → Option String := fun p =>
  if p = "examples/latest/pkg/Cargo.toml" then some "c" else none

def exUpdates : List MUpdate :=
  [{ path := "examples/release/pkg/Cargo.toml", createIfMissing := false,
     updater := .rawContent "x" }]

def exMirrorGet : String → Option String := fun p =>
  if p = "s" then some "c" else none

def exMirrorUpdates : List MUpdate :=
  [{ path := "s", createIfMissing := false,
     updater := .baseFn (fun _ => some "") }]

-- ---------------------------------------------------------------------------
-- Theorems.
-- ---------------------------------------------------------------------------

-- Helper lemmas for the chain transform.

theorem chainRun_append (us1 us2 : List SUpdater) (content : String) :
    chainRun (us1 ++ us2) content =
      us2.foldl (fun acc u =>
        match acc with
        | none => none
        | some s => u s) (chainRun us1 content) := by
  simp [chainRun, List.foldl_append]

theorem chainStep_foldl_none (us : List SUpdater) :
    us.foldl (fun acc u =>
      match acc with
      | none => none
      | some s => u s) none = none := by
  induction us with
  | nil => rfl
  | cons u us ih => simpa using ih

/-- C6, counterexample: the chain does not continue with an empty string
after a transform yields no content.  With a deleting first transform and a
prefixing second transform, the source chain returns the empty string (the
second transform is never invoked), while the spec-described chain would
return the second transform applied to the empty string. -/
theorem compositeUpdater_skips_after_none :
    CompositeUpdater.updateContent [fun _ => none, fun s => some ("X" ++ s)] "y" = ""
    ∧ specChainUpdate [fun _ => none, fun s => some ("X" ++ s)] "y" = "X"
    ∧ ("" : String) ≠ "X" :=
  ⟨rfl, rfl, by decide⟩

/-- C6, amended: once some transform in the chain yields no content, the
null result propagates unchanged past every remaining transform — the
remaining transforms are not invoked and cannot affect the result — and the
chain's final result is the empty string. -/
theorem compositeUpdater_none_shortCircuit :
    ∀ (us1 us2 : List SUpdater) (content : String),
      chainRun us1 content = none →
      CompositeUpdater.updateContent (us1 ++ us2) content = "" := by
  intro us1 us2 content h
  unfold CompositeUpdater.updateContent
  rw [chainRun_append, h, chainStep_foldl_none]

theorem compositeUpdater_none_shortCircuit_witness :
    chainRun [fun _ => none] "y" = none
    ∧ CompositeUpdater.updateContent
        ([fun _ => none] ++ [fun s => some ("X" ++ s)]) "y" = "" :=
  ⟨rfl, compositeUpdater_none_shortCircuit [fun _ => none]
    [fun s => some ("X" ++ s)] "y" rfl⟩

-- Helper lemmas for mergeUpdates.

theorem firstDedupAux_nodup (l : List String) :
    ∀ seen, (firstDedupAux l seen).Nodup ∧ ∀ x ∈ firstDedupAux l seen, x ∉ seen := by
  induction l with
  | nil => intro seen; simp [firstDedupAux]
  | cons a l ih =>
    intro seen
    by_cases h : a ∈ seen
    · simpa [firstDedupAux, h] using ih seen
    · have ih' := ih (a :: seen)
      constructor
      · simp only [firstDedupAux, h, if_false, List.nodup_cons]
        refine ⟨fun hmem => ?_, ih'.1⟩
        have := ih'.2 a hmem
        simp at this
      · intro x hx
        simp only [firstDedupAux, h, if_false, List.mem_cons] at hx
        rcases hx with rfl | hx
        · exact h
        · have := ih'.2 x hx
          intro hxs
          exact this (List.mem_cons_of_mem _ hxs)

theorem mem_firstDedupAux (l : List String) :
    ∀ seen x, x ∈ l → x ∉ seen → x ∈ firstDedupAux l seen := by
  induction l with
  | nil => intro seen x hx; simp at hx
  | cons a l ih =>
    intro seen x hx hxs
    by_cases ha : a ∈ seen
    · simp only [firstDedupAux, ha, if_true]
      rcases List.mem_cons.mp hx with rfl | hx'
      · exact absurd ha hxs
      · exact ih seen x hx' hxs
    · simp only [firstDedupAux, ha, if_false]
      by_cases hxa : x = a
      · exact hxa ▸ List.mem_cons_self _ _
      · rcases List.mem_cons.mp hx with rfl | hx'
        · exact absurd rfl hxa
        · refine List.mem_cons_of_mem _ (ih (a :: seen) x hx' ?_)
          simp [hxa, hxs]

theorem map_mkEntry_path (updates : List CUpdate) :
    ∀ L : List String, L.map (fun p => (mkEntry updates p).path) = L := by
  intro L
  induction L with
  | nil => rfl
  | cons p L ih => simp only [List.map_cons, ih]; rfl

theorem mergeUpdates_map_path (updates : List CUpdate) :
    (mergeUpdates updates).map (fun u => u.path)
      = firstDedup (updates.map (fun u => u.path)) := by
  unfold mergeUpdates
  rw [List.map_map]
  exact map_mkEntry_path updates _

theorem filter_singleton_of_nodup (p : String) :
    ∀ L : List String, L.Nodup → p ∈ L → L.filter (fun q => q = p) = [p] := by
  intro L
  induction L with
  | nil => intro _ h; simp at h
  | cons a L ih =>
    intro hnd hmem
    have hnd' := List.nodup_cons.mp hnd
    rcases List.mem_cons.mp hmem with rfl | hp
    · have hfil : L.filter (fun q => q = p) = [] := by
        apply List.filter_eq_nil_iff.mpr
        intro x hx
        simp only [decide_eq_true_eq]
        intro hxp
        exact hnd'.1 (hxp ▸ hx)
      simp [List.filter_cons, hfil]
    · have hap : a ≠ p := fun h => hnd'.1 (h ▸ hp)
      simp only [List.filter_cons]
      rw [if_neg (by simp [hap])]
      exact ih hnd'.2 hp

theorem filter_map_mkEntry (updates : List CUpdate) (p : String) :
    ∀ L : List String,
      (L.map (mkEntry updates)).filter (fun u => u.path = p)
        = (L.filter (fun q => q = p)).map (mkEntry updates) := by
  intro L
  induction L with
  | nil => rfl
  | cons q L ih =>
    by_cases hq : q = p
    · subst hq
      simp only [List.map_cons, List.filter_cons]
      rw [if_pos (by simp [mkEntry]), if_pos (by simp)]
      simp [ih]
    · simp only [List.map_cons, List.filter_cons]
      rw [if_neg (by simp [mkEntry, hq]), if_neg (by simp [hq])]
      exact ih

/-- C7: mergeUpdates leaves at most one edit per distinct target path; for
every path with a nonempty group, the surviving edit keeps the group's first
create-if-missing flag and carries the single original transform when the
group has one member, otherwise the chain of the group's transforms in input
order. -/
theorem mergeUpdates_merge_rule :
    ∀ (updates : List CUpdate) (p : String),
      ((mergeUpdates updates).map (fun u => u.path)).Nodup
      ∧ (∀ g, g = updates.filter (fun u => u.path = p) → g ≠ [] →
          (mergeUpdates updates).filter (fun u => u.path = p) =
            [{ path := p,
               createIfMissing := (g.headD default).createIfMissing,
               updater :=
                 match g.map (fun u => u.updater) with
                 | [u] => u
                 | us => .composite us }]) := by
  intro updates p
  constructor
  · rw [mergeUpdates_map_path]
    exact (firstDedupAux_nodup _ []).1
  · intro g hg hne
    have hpmem : p ∈ updates.map (fun u => u.path) := by
      rcases List.exists_mem_of_ne_nil g hne with ⟨u, hu⟩
      rw [hg] at hu
      have := List.mem_filter.mp hu
      have hup : u.path = p := by simpa using this.2
      exact hup ▸ List.mem_map_of_mem _ this.1
    have hpded : p ∈ firstDedup (updates.map (fun u => u.path)) :=
      mem_firstDedupAux _ [] p hpmem (by simp)
    have hnd : (firstDedup (updates.map (fun u => u.path))).Nodup :=
      (firstDedupAux_nodup _ []).1
    unfold mergeUpdates
    rw [filter_map_mkEntry, filter_singleton_of_nodup p _ hnd hpded]
    simp only [List.map_cons, List.map_nil]
    unfold mkEntry
    rw [← hg]

theorem mergeUpdates_merge_rule_witness :
    ((mergeUpdates
        [⟨"a", true, .base 1⟩, ⟨"b", false, .base 2⟩, ⟨"a", false, .base 3⟩]).map
          (fun u => u.path)).Nodup
    ∧ (mergeUpdates
        [⟨"a", true, .base 1⟩, ⟨"b", false, .base 2⟩, ⟨"a", false, .base 3⟩]).filter
          (fun u => u.path = "a")
        = [{ path := "a", createIfMissing := true,
             updater := .composite [.base 1, .base 3] }] := by
  have h := mergeUpdates_merge_rule
    [⟨"a", true, .base 1⟩, ⟨"b", false, .base 2⟩, ⟨"a", false, .base 3⟩] "a"
  refine ⟨h.1, ?_⟩
  have h2 := h.2 ([⟨"a", true, .base 1⟩, ⟨"a", false, .base 3⟩]) (by rfl) (by simp)
  exact h2

/-- C9, counterexample: a resolved content that *is* a string — the empty
string, produced here by the transform attached to the source file — is
registered as a RemoveFile edit, not as a write of that content. -/
theorem overwriteFile_empty_removes :
    resolvedNewContent exMirrorGet exMirrorUpdates "s" = some ""
    ∧ (overwriteNewUpdate exMirrorGet exMirrorUpdates "s" "t").updater
        = MUpdater.removeFile
    ∧ MUpdater.removeFile ≠ MUpdater.rawContent "" :=
  ⟨rfl, rfl, fun h => by cases h⟩

/-- C9, amended: the registered edit is a removal exactly when the resolved
content is JavaScript-falsy — null or the empty string; only a non-empty
resolved content is written. -/
theorem overwriteFile_removal_rule :
    ∀ (getContents : String → Option String) (updates : List MUpdate)
      (sourcePath targetPath : String),
      ((resolvedNewContent getContents updates sourcePath = none
          ∨ resolvedNewContent getContents updates sourcePath = some "") →
        (overwriteNewUpdate getContents updates sourcePath targetPath).updater
          = MUpdater.removeFile)
      ∧ (∀ c, resolvedNewContent getContents updates sourcePath = some c →
          c ≠ "" →
          (overwriteNewUpdate getContents updates sourcePath targetPath).updater
            = MUpdater.rawContent c)
      ∧ overwriteFile getContents updates sourcePath targetPath
          = updates ++ [overwriteNewUpdate getContents updates sourcePath targetPath] := by
  intro getContents updates sourcePath targetPath
  refine ⟨?_, ?_, rfl⟩
  · intro h
    rcases h with h | h <;>
      simp [overwriteNewUpdate, h, jsTruthyStr]
  · intro c h hc
    simp [overwriteNewUpdate, h, jsTruthyStr, hc]

theorem overwriteFile_removal_rule_witness :
    (overwriteNewUpdate exMirrorGet exMirrorUpdates "s" "t").updater
      = MUpdater.removeFile
    ∧ (overwriteNewUpdate exMirrorGet [] "s" "t").updater
      = MUpdater.rawContent "c" :=
  ⟨(overwriteFile_removal_rule exMirrorGet exMirrorUpdates "s" "t").1 (Or.inr rfl),
   (overwriteFile_removal_rule exMirrorGet [] "s" "t").2.1 "c" rfl (by decide)⟩

/-- C1: whenever replaceTomlValue returns a result, that result re-parses
with the plain (untagged) parser; and whenever the spliced output fails to
re-parse, the operation fails with the corruption error instead of returning
the corrupt text. -/
theorem replaceTomlValue_selfCheck :
    ∀ (input : TomlText) (path : List String) (newValue : Option JVal),
      (∀ out, replaceTomlValue input path newValue = .ok out →
        exceptIsOk (parseWith false out) = true)
      ∧ (∀ out, replaceTomlSpliced input path newValue = .ok out →
          exceptIsOk (parseWith false out) = false →
          ∃ m, replaceTomlValue input path newValue = .error (.corruption m)) := by
  intro input path newValue
  constructor
  · intro out h
    cases hs : replaceTomlSpliced input path newValue with
    | error e => simp only [replaceTomlValue, hs] at h; exact absurd h (by simp)
    | ok o =>
      cases hp : parseWith false o with
      | error e =>
        simp only [replaceTomlValue, hs, hp] at h
        exact absurd h (by simp)
      | ok t =>
        simp only [replaceTomlValue, hs, hp] at h
        cases h
        rw [hp]
        rfl
  · intro out hs hfail
    cases hp : parseWith false out with
    | ok t => rw [hp] at hfail; simp [exceptIsOk] at hfail
    | error e =>
      refine ⟨"After replacing value, result is not valid TOML: " ++ parseErrMsg e, ?_⟩
      simp only [replaceTomlValue, hs, hp]

theorem replaceTomlValue_selfCheck_witness :
    exceptIsOk (parseWith false (toText "[t]\na = \"x\"\nb = \"z\"\n")) = true
    ∧ ∃ m, replaceTomlValue (toText manifestPathFirst)
        ["dependencies", "foo", "path"] none = .error (.corruption m) :=
  ⟨(replaceTomlValue_selfCheck (toText "[t]\na = \"x\"\nb = \"y\"\n") ["t", "b"]
      (some (.str "z"))).1 (toText "[t]\na = \"x\"\nb = \"z\"\n") rfl,
   (replaceTomlValue_selfCheck (toText manifestPathFirst)
      ["dependencies", "foo", "path"] none).2
      (toText manifestPathFirstSpliced) rfl rfl⟩

/-- C2, counterexample: a non-null but falsy newValue — the empty string —
does not splice its stringification into the value's span; the truthiness
test `if (newValue)` sends it down the deletion branch instead. -/
theorem replaceTomlValue_falsy_newValue :
    replaceTomlValue (toText "[t]\na = \"x\"\nb = \"y\"\n") ["t", "b"]
        (some (.str ""))
      = .ok (toText "[t]\na = \"x\"\n\n")
    ∧ toText "[t]\na = \"x\"\n\n"
        ≠ (toText "[t]\na = \"x\"\nb = \"y\"\n").take 16
            ++ stringifyValue (.str "")
            ++ (toText "[t]\na = \"x\"\nb = \"y\"\n").drop 19 :=
  ⟨rfl, by decide⟩

/-- C2, amended: for every path resolving to a Tagged Value and every
*truthy* non-null newValue (in particular every non-empty version string),
the produced text is the original with exactly the byte range
`[start, end)` of the tagged value replaced by the canonical stringification
of newValue, all bytes before `start` and after `end` unchanged.  An
empty-string newValue instead takes the deletion branch. -/
theorem replaceTomlValue_truthy_splice :
    ∀ (input : TomlText) (path : List String) (v : JVal) (out : TomlText)
      (pc : Option Nat) (a st en : Nat) (w : JVal),
      navigateFull input path = .ok (.tagged pc a st en w) →
      jsTruthy v = true →
      replaceTomlValue input path (some v) = .ok out →
      out = input.take st ++ stringifyValue v ++ input.drop en
      ∧ out.take (input.take st).length = input.take st
      ∧ out.drop ((input.take st).length + (stringifyValue v).length)
          = input.drop en := by
  intro input path v out pc a st en w hnav htru h
  have hs : replaceTomlSpliced input path (some v)
      = .ok (input.take st ++ stringifyValue v ++ input.drop en) := by
    simp only [replaceTomlSpliced, hnav, htru, if_true]
  have hout : out = input.take st ++ stringifyValue v ++ input.drop en := by
    cases hp : parseWith false
        (input.take st ++ stringifyValue v ++ input.drop en) with
    | error e =>
      simp only [replaceTomlValue, hs, hp] at h
      exact absurd h (by simp)
    | ok t =>
      simp only [replaceTomlValue, hs, hp] at h
      cases h
      rfl
  subst hout
  refine ⟨rfl, ?_, ?_⟩
  · rw [List.append_assoc]
    exact List.take_left _ _
  · rw [← List.length_append]
    exact List.drop_left _ _

theorem replaceTomlValue_truthy_splice_witness :
    toText "[t]\na = \"x\"\nb = \"z\"\n"
        = (toText "[t]\na = \"x\"\nb = \"y\"\n").take 16
            ++ stringifyValue (.str "z")
            ++ (toText "[t]\na = \"x\"\nb = \"y\"\n").drop 19
    ∧ (toText "[t]\na = \"x\"\nb = \"z\"\n").take
          ((toText "[t]\na = \"x\"\nb = \"y\"\n").take 16).length
        = (toText "[t]\na = \"x\"\nb = \"y\"\n").take 16
    ∧ (toText "[t]\na = \"x\"\nb = \"z\"\n").drop
          (((toText "[t]\na = \"x\"\nb = \"y\"\n").take 16).length
            + (stringifyValue (.str "z")).length)
        = (toText "[t]\na = \"x\"\nb = \"y\"\n").drop 19 :=
  replaceTomlValue_truthy_splice (toText "[t]\na = \"x\"\nb = \"y\"\n")
    ["t", "b"] (.str "z") (toText "[t]\na = \"x\"\nb = \"z\"\n")
    none 12 16 19 (.str "y") rfl rfl rfl

/-- C10, counterexample: for a document whose first assignment starts at
byte offset 0, the scalar at that key is indeed left untagged — but
replaceTomlValue addressed at it fails with the path-not-found error, not
with the value-not-tagged error: the untagged scalar is a plain string, so
the traversal's object check rejects it before the tag check is reached. -/
theorem offsetZero_error_kind :
    parseWith true (toText "a = \"1\"") = .ok (.table [("a", .str "1")])
    ∧ replaceTomlValue (toText "a = \"1\"") ["a"] (some (.str "2"))
        = .error (.pathNotFound "path not found in object: a") :=
  ⟨rfl, rfl⟩

/-- C10, amended: a recorded assignment offset of 0 is treated as absent, so
the span-tagging parser attaches no Tagged Value to the first assignment's
scalar when it begins at byte offset 0 (while the same document indented by
one byte gets a tag); consequently replaceTomlValue addressed at any
top-level key whose value was left an untagged scalar fails with the
path-not-found error for that key. -/
theorem offsetZero_untagged_pathNotFound :
    (∀ (input : TomlText) (k s : String) (fs : List (String × JVal))
        (nv : Option JVal),
      parseWith true input = .ok (.table fs) →
      lookupF fs k = some (.str s) →
      replaceTomlValue input [k] nv
        = .error (.pathNotFound ("path not found in object: " ++ k)))
    ∧ parseWith true (toText " a = \"1\"")
        = .ok (.table [("a", .tagged none 1 5 8 (.str "1"))]) := by
  constructor
  · intro input k s fs nv hparse hlook
    have hnav : navigateFull input [k]
        = .error (.pathNotFound ("path not found in object: " ++ k)) := by
      simp only [navigateFull, hparse, navigateGo, jsIndex, hlook, jsIsObject]
      rfl
    have hs : replaceTomlSpliced input [k] nv
        = .error (.pathNotFound ("path not found in object: " ++ k)) := by
      simp only [replaceTomlSpliced, hnav]
    simp only [replaceTomlValue, hs]
  · rfl

theorem offsetZero_untagged_pathNotFound_witness :
    replaceTomlValue (toText "b = \"1\"\nc = \"2\"\n") ["b"] (some (.str "9"))
      = .error (.pathNotFound "path not found in object: b") :=
  offsetZero_untagged_pathNotFound.1 (toText "b = \"1\"\nc = \"2\"\n") "b" "1"
    [("b", .str "1"), ("c", .tagged none 8 12 15 (.str "2"))]
    (some (.str "9")) rfl rfl

/-- C3: the path stripper on the spec's own example shape — `path` as the
first sub-field of the inline table — splices out the entry but leaves the
*following* comma (the recorded separator offset is the comma *before* the
assign statement, which a first entry does not have), producing
`foo = \x7b , version = "2.0.0" \x7d`; the mandatory re-parse rejects it and
updateContent fails with CorruptionError instead of returning the stripped
manifest.  When a comma precedes the path sub-field the deletion removes the
separator too and the entry becomes `foo = \x7b version = "2.0.0" \x7d`
exactly as the spec describes. -/
theorem cargoTomlRemovePaths_pathFirst_corruption :
    replaceTomlSpliced (toText manifestPathFirst)
        ["dependencies", "foo", "path"] none
      = .ok (toText manifestPathFirstSpliced)
    ∧ CargoTomlRemovePaths.updateContent ["foo"] (toText manifestPathFirst)
      = .error (.toml (.corruption
          "After replacing value, result is not valid TOML: expected key"))
    ∧ CargoTomlRemovePaths.updateContent ["foo"] (toText manifestPathSecond)
      = .ok (toText manifestPathSecondStripped) :=
  ⟨by decide, by decide, by decide⟩

/-- C4: whenever a manifest declares a mapped package as a table with both
an explicit path and an explicit version, the dependency updater writes
exactly the new version string, except under the dev-dependencies kind
where it writes the widened `<=` bound; end to end, the spec's example
manifests are rewritten to `version = "2.0.0"` under `[dependencies]` and
to `version = "<=2.0.0"` under `[dev-dependencies]`. -/
theorem cargoToml_dependency_bump :
    (∀ (parsed : JVal) (payload : TomlText)
        (pkgName pkgVersion depKind : String) (deps dep : JVal),
      jsIndexTruthy parsed depKind = some deps →
      jsIndexTruthy deps pkgName = some dep →
      isStrJ dep = false →
      (jsIndex dep "path").isSome = true →
      (jsIndex dep "version").isSome = true →
      depUpdateStep parsed pkgName pkgVersion depKind payload =
        replaceTomlValue payload [depKind, pkgName, "version"]
          (some (.str (if depKind = "dev-dependencies"
                       then "<=" ++ pkgVersion else pkgVersion))))
    ∧ CargoToml.updateContent "1.2.3" (some [("foo", "2.0.0")])
        (toText manifestDeps) = .ok (toText manifestDepsBumped)
    ∧ CargoToml.updateContent "1.2.3" (some [("foo", "2.0.0")])
        (toText manifestDevDeps) = .ok (toText manifestDevDepsBumped) := by
  refine ⟨?_, by decide, by decide⟩
  intro parsed payload pkgName pkgVersion depKind deps dep h1 h2 h3 h4 h5
  obtain ⟨pv, hpv⟩ := Option.isSome_iff_exists.mp h4
  obtain ⟨vv, hvv⟩ := Option.isSome_iff_exists.mp h5
  simp [depUpdateStep, h1, h2, h3, hpv, hvv]

theorem cargoToml_dependency_bump_witness :
    depUpdateStep (.table [("dev-dependencies",
        .table [("foo", .table [("path", .str "p"), ("version", .str "1")])])])
      "foo" "2.0.0" "dev-dependencies" (toText manifestDevDeps)
    = replaceTomlValue (toText manifestDevDeps)
        ["dev-dependencies", "foo", "version"]
        (some (.str (if "dev-dependencies" = "dev-dependencies"
                     then "<=" ++ "2.0.0" else "2.0.0"))) :=
  cargoToml_dependency_bump.1
    (.table [("dev-dependencies",
        .table [("foo", .table [("path", .str "p"), ("version", .str "1")])])])
    (toText manifestDevDeps) "foo" "2.0.0" "dev-dependencies"
    (.table [("foo", .table [("path", .str "p"), ("version", .str "1")])])
    (.table [("path", .str "p"), ("version", .str "1")])
    rfl rfl rfl rfl rfl

/-- C5: the platform-conditional loop is *not* the same rule as the
top-level one: it lacks the no-version skip, so a target sub-table
dependency declared with a `path` but no `version` is not left untouched —
the updater calls replaceTomlValue on the missing `version` path and the
whole update fails with the path-not-found error, while the identical
declaration at top level is skipped and the update succeeds. -/
theorem cargoToml_target_missing_version_check :
    CargoToml.updateContent "1.2.3" (some [("foo", "2.0.0")])
        (toText manifestTargetNoVersion)
      = .error (.toml (.pathNotFound
          "path not found in object: target.cfg(unix).dependencies.foo.version"))
    ∧ CargoToml.updateContent "1.2.3" (some [("foo", "2.0.0")])
        (toText manifestTopNoVersion)
      = .ok (toText manifestTopNoVersionBumped) :=
  ⟨by decide, by decide⟩

/-- C8, counterexample: when the incoming candidate already carries an edit
for a file under the mirrored destination directory (here a version-bumped
example manifest), the mirror sync's overwrite loop registers a second edit
at the same path without checking, so the returned candidate has two edits
with the target path `examples/release/pkg/Cargo.toml`. -/
theorem runAppendPhase_duplicate_path :
    (runAppendPhase exFindFiles exGetContents ".release-please-manifest.json"
        [] exUpdates).map (fun u => u.path)
      = ["examples/release/pkg/Cargo.toml", ".release-please-manifest.json",
         "examples/release/pkg/Cargo.toml", "examples/release/Cargo.toml"]
    ∧ ¬ (["examples/release/pkg/Cargo.toml", ".release-please-manifest.json",
          "examples/release/pkg/Cargo.toml", "examples/release/Cargo.toml"]
          : List String).Nodup :=
  ⟨rfl, by decide⟩

-- Helper lemmas for the mirror-phase path bookkeeping.

theorem overwriteFile_map_path (gc : String → Option String)
    (ups : List MUpdate) (sp tp : String) :
    (overwriteFile gc ups sp tp).map (fun u => u.path)
      = ups.map (fun u => u.path) ++ [tp] := by
  simp [overwriteFile, overwriteNewUpdate]

theorem nodup_snoc {α : Type _} {l : List α} {a : α}
    (h1 : l.Nodup) (h2 : a ∉ l) : (l ++ [a]).Nodup := by
  simp [List.nodup_append, h1, h2]

theorem find?_path_none {ups : List MUpdate} {q : String}
    (h : (ups.find? (fun u => u.path = q)).isNone = true) :
    q ∉ ups.map (fun u => u.path) := by
  intro hq
  obtain ⟨u, hu, hq'⟩ := List.mem_map.mp hq
  rw [Option.isNone_iff_eq_none, List.find?_eq_none] at h
  exact h u hu (by simp [hq'])

theorem overwriteLoop1_map_path (gc : String → Option String)
    (sd td : String) (exc : List String) :
    ∀ (files : List String) (ups : List MUpdate),
      (overwriteLoop1 gc sd td exc ups files).map (fun u => u.path)
        = ups.map (fun u => u.path)
          ++ (files.filter (fun f => f ∉ exc)).map (fun f => td ++ "/" ++ f) := by
  intro files
  induction files with
  | nil => intro ups; simp [overwriteLoop1]
  | cons f fs ih =>
    intro ups
    have hstep : overwriteLoop1 gc sd td exc ups (f :: fs)
        = overwriteLoop1 gc sd td exc
            (if f ∈ exc then ups
             else overwriteFile gc ups (sd ++ "/" ++ f) (td ++ "/" ++ f)) fs := rfl
    by_cases hf : f ∈ exc
    · rw [hstep, if_pos hf, ih]
      simp [List.filter_cons, hf]
    · rw [hstep, if_neg hf, ih, overwriteFile_map_path]
      simp [List.filter_cons, hf]

theorem overwriteLoop2_spec (gc : String → Option String)
    (sd td : String) (exc : List String) :
    ∀ (files : List String) (ups : List MUpdate),
      ∃ extra : List String,
        (overwriteLoop2 gc sd td exc ups files).map (fun u => u.path)
          = ups.map (fun u => u.path) ++ extra
        ∧ (∀ x ∈ extra, x ∈ files.map (fun f => td ++ "/" ++ f))
        ∧ ((ups.map (fun u => u.path)).Nodup →
            ((overwriteLoop2 gc sd td exc ups files).map (fun u => u.path)).Nodup) := by
  intro files
  induction files with
  | nil =>
    intro ups
    exact ⟨[], by simp [overwriteLoop2], by simp,
      fun h => by simpa [overwriteLoop2] using h⟩
  | cons f fs ih =>
    intro ups
    have hstep : overwriteLoop2 gc sd td exc ups (f :: fs)
        = overwriteLoop2 gc sd td exc
            (if (ups.find? (fun u => u.path = td ++ "/" ++ f)).isNone
                ∧ f ∉ exc then
               overwriteFile gc ups (sd ++ "/" ++ f) (td ++ "/" ++ f)
             else ups) fs := rfl
    by_cases hc : (ups.find? (fun u => u.path = td ++ "/" ++ f)).isNone
        ∧ f ∉ exc
    · obtain ⟨extra, he, hsub, hnd⟩ :=
        ih (overwriteFile gc ups (sd ++ "/" ++ f) (td ++ "/" ++ f))
      refine ⟨(td ++ "/" ++ f) :: extra, ?_, ?_, ?_⟩
      · rw [hstep, if_pos hc, he, overwriteFile_map_path]
        simp
      · intro x hx
        rcases List.mem_cons.mp hx with rfl | hx'
        · exact List.mem_map_of_mem _ (List.mem_cons_self _ _)
        · have := hsub x hx'
          simp only [List.map_cons, List.mem_cons]
          exact Or.inr (by simpa using this)
      · intro hups
        rw [hstep, if_pos hc]
        apply hnd
        rw [overwriteFile_map_path]
        exact nodup_snoc hups (find?_path_none hc.1)
    · obtain ⟨extra, he, hsub, hnd⟩ := ih ups
      refine ⟨extra, ?_, ?_, ?_⟩
      · rw [hstep, if_neg hc]; exact he
      · intro x hx
        have := hsub x hx
        simp only [List.map_cons, List.mem_cons]
        exact Or.inr (by simpa using this)
      · intro hups
        rw [hstep, if_neg hc]
        exact hnd hups

theorem overwriteDirectory_spec (ff : String → String → List String)
    (gc : String → Option String) (ups : List MUpdate)
    (sd td : String) (exc : List String) :
    ∃ extra : List String,
      (overwriteDirectory ff gc ups sd td exc).map (fun u => u.path)
        = ups.map (fun u => u.path) ++ mirrorOverwritePaths ff td exc ++ extra
      ∧ (∀ x ∈ extra, x ∈ mirrorSourcePaths ff sd td)
      ∧ ((ups.map (fun u => u.path) ++ mirrorOverwritePaths ff td exc).Nodup →
          ((overwriteDirectory ff gc ups sd td exc).map (fun u => u.path)).Nodup) := by
  obtain ⟨extra, he, hsub, hnd⟩ := overwriteLoop2_spec gc sd td exc
    (ff "**/*" sd) (overwriteLoop1 gc sd td exc ups (ff "**/*" td))
  refine ⟨extra, ?_, hsub, ?_⟩
  · show (overwriteLoop2 gc sd td exc
        (overwriteLoop1 gc sd td exc ups (ff "**/*" td))
        (ff "**/*" sd)).map (fun u => u.path) = _
    rw [he, overwriteLoop1_map_path]
    rfl
  · intro h
    show ((overwriteLoop2 gc sd td exc
        (overwriteLoop1 gc sd td exc ups (ff "**/*" td))
        (ff "**/*" sd)).map (fun u => u.path)).Nodup
    apply hnd
    rw [overwriteLoop1_map_path]
    exact h

theorem setUpdaterAtFirst_map_path (p : String) (g : MUpdater → MUpdater) :
    ∀ ups : List MUpdate,
      (setUpdaterAtFirst ups p g).map (fun u => u.path)
        = ups.map (fun u => u.path) := by
  intro ups
  induction ups with
  | nil => rfl
  | cons u us ih =>
    by_cases hu : u.path = p
    · simp [setUpdaterAtFirst, hu]
    · simp [setUpdaterAtFirst, hu, ih]

theorem removeReleaseExamplePaths_map_path (ff : String → String → List String)
    (aps : List String) (ups : List MUpdate) :
    (removeReleaseExamplePaths ff aps ups).map (fun u => u.path)
      = ups.map (fun u => u.path) := by
  unfold removeReleaseExamplePaths
  generalize (ff "**/Cargo.toml" "examples/latest") = files
  induction files generalizing ups with
  | nil => rfl
  | cons f fs ih =>
    rw [List.foldl_cons, ih, setUpdaterAtFirst_map_path]


/-- C8, amended: after the edit-appending phase no candidate edit list holds
two edits with the same target path, *provided* the incoming candidate's
edit paths are duplicate-free and stay clear of the paths the phase itself
appends — the aggregate-manifest path, the mirrored docs and examples
destination paths, and the example workspace manifest path.  The
source-only creation loop is guarded by an exists-check and never
introduces a duplicate; the overwrite loop and the two pushed edits append
without checking, which is exactly what the counterexample exploits. -/
theorem runAppendPhase_nodup :
    ∀ (ff : String → String → List String) (gc : String → Option String)
      (manifestPath : String) (allPackages : List String)
      (updates : List MUpdate),
      (updates.map (fun u => u.path)).Nodup →
      manifestPath ∉ updates.map (fun u => u.path) →
      (mirrorOverwritePaths ff "docs/docusaurus/versioned_docs/version-release"
        ["docs-config.json"]).Nodup →
      (∀ x ∈ mirrorOverwritePaths ff
          "docs/docusaurus/versioned_docs/version-release" ["docs-config.json"],
        x ∉ updates.map (fun u => u.path) ++ [manifestPath]) →
      (mirrorOverwritePaths ff "examples/release"
        ["Cargo.toml", "Justfile"]).Nodup →
      (∀ x ∈ mirrorOverwritePaths ff "examples/release"
          ["Cargo.toml", "Justfile"],
        x ∉ updates.map (fun u => u.path) ++ [manifestPath]
          ++ mirrorOverwritePaths ff
              "docs/docusaurus/versioned_docs/version-release" ["docs-config.json"]
          ++ mirrorSourcePaths ff "docs/docusaurus/docs"
              "docs/docusaurus/versioned_docs/version-release") →
      "examples/release/Cargo.toml" ∉ updates.map (fun u => u.path)
          ++ [manifestPath]
          ++ mirrorOverwritePaths ff
              "docs/docusaurus/versioned_docs/version-release" ["docs-config.json"]
          ++ mirrorSourcePaths ff "docs/docusaurus/docs"
              "docs/docusaurus/versioned_docs/version-release"
          ++ mirrorOverwritePaths ff "examples/release" ["Cargo.toml", "Justfile"]
          ++ mirrorSourcePaths ff "examples/latest" "examples/release" →
      ((runAppendPhase ff gc manifestPath allPackages updates).map
        (fun u => u.path)).Nodup := by
  intro ff gc manifestPath allPackages updates h1 h2 h3 h4 h5 h6 h7
  have hP1 : ((updates ++ [({ path := manifestPath, createIfMissing := false, updater := .releasePleaseManifest } : MUpdate)]).map (fun u => u.path)) = updates.map (fun u => u.path) ++ [manifestPath] := by
    simp
  obtain ⟨exD, heD, hsubD, hndD⟩ := overwriteDirectory_spec ff gc
    (updates ++ [({ path := manifestPath, createIfMissing := false, updater := .releasePleaseManifest } : MUpdate)])
    "docs/docusaurus/docs" "docs/docusaurus/versioned_docs/version-release"
    ["docs-config.json"]
  rw [hP1] at heD
  have hP2nd : ((overwriteDirectory ff gc
      (updates ++ [({ path := manifestPath, createIfMissing := false, updater := .releasePleaseManifest } : MUpdate)])
      "docs/docusaurus/docs" "docs/docusaurus/versioned_docs/version-release"
      ["docs-config.json"]).map (fun u => u.path)).Nodup := by
    apply hndD
    rw [hP1, List.nodup_append]
    refine ⟨nodup_snoc h1 h2, h3, ?_⟩
    intro a ha hcontra
    exact h4 a hcontra ha
  obtain ⟨exE, heE, hsubE, hndE⟩ := overwriteDirectory_spec ff gc
    (overwriteDirectory ff gc
      (updates ++ [({ path := manifestPath, createIfMissing := false, updater := .releasePleaseManifest } : MUpdate)])
      "docs/docusaurus/docs" "docs/docusaurus/versioned_docs/version-release"
      ["docs-config.json"])
    "examples/latest" "examples/release" ["Cargo.toml", "Justfile"]
  have hP3nd : ((overwriteDirectory ff gc
      (overwriteDirectory ff gc
        (updates ++ [({ path := manifestPath, createIfMissing := false, updater := .releasePleaseManifest } : MUpdate)])
        "docs/docusaurus/docs" "docs/docusaurus/versioned_docs/version-release"
        ["docs-config.json"])
      "examples/latest" "examples/release" ["Cargo.toml", "Justfile"]).map
        (fun u => u.path)).Nodup := by
    apply hndE
    rw [List.nodup_append]
    refine ⟨hP2nd, h5, ?_⟩
    intro a ha hcontra
    refine h6 a hcontra ?_
    rw [heD] at ha
    have hD : a ∈ exD → a ∈ mirrorSourcePaths ff "docs/docusaurus/docs"
        "docs/docusaurus/versioned_docs/version-release" := fun h => hsubD _ h
    simp only [List.mem_append] at ha ⊢
    tauto
  have hfinal : runAppendPhase ff gc manifestPath allPackages updates
      = removeReleaseExamplePaths ff allPackages
          (overwriteDirectory ff gc
            (overwriteDirectory ff gc
              (updates ++ [({ path := manifestPath, createIfMissing := false, updater := .releasePleaseManifest } : MUpdate)])
              "docs/docusaurus/docs"
              "docs/docusaurus/versioned_docs/version-release"
              ["docs-config.json"])
            "examples/latest" "examples/release"
            ["Cargo.toml", "Justfile"])
        ++ [({ path := "examples/release/Cargo.toml", createIfMissing := true, updater := .cargoWorkspaceMembers ((ff "**/Cargo.toml" "examples/latest").map (fun f => f.dropRight "/Cargo.toml".length)) } : MUpdate)] := rfl
  rw [hfinal, List.map_append, removeReleaseExamplePaths_map_path]
  apply nodup_snoc hP3nd
  intro hcontra
  refine h7 ?_
  rw [heE, heD] at hcontra
  have hD : "examples/release/Cargo.toml" ∈ exD →
      "examples/release/Cargo.toml" ∈ mirrorSourcePaths ff "docs/docusaurus/docs"
        "docs/docusaurus/versioned_docs/version-release" := fun h => hsubD _ h
  have hE : "examples/release/Cargo.toml" ∈ exE →
      "examples/release/Cargo.toml" ∈ mirrorSourcePaths ff "examples/latest"
        "examples/release" := fun h => hsubE _ h
  simp only [List.mem_append] at hcontra ⊢
  tauto

theorem runAppendPhase_nodup_witness :
    ((runAppendPhase (fun _ _ => []) (fun _ => none) "m" [] []).map
      (fun u => u.path)).Nodup :=
  runAppendPhase_nodup (fun _ _ => []) (fun _ => none) "m" [] []
    (by simp) (by simp) (by decide) (by decide) (by decide) (by decide) (by decide)
